import Mathlib

/-!
Shallow embedding of the market-structure analysis engine in `src/main.py`
(candlestick bot): bar model, derived per-bar properties, trend direction,
live-bar time progress, swing-point extraction, double-top/bottom and
BOS/CHoCH detectors, the merged final/live analysis view, and the
at-most-once finalization gate of the live ingestion path.

Python floats are modelled as rationals (`ℚ`); epoch timestamps as rational
seconds.  All definitions are computable and follow the source line by line.
-/

set_option maxRecDepth 4000

section

attribute [local semireducible] Rat.add Rat.mul Rat.sub Rat.inv Rat.ofScientific

/-- A single OHLCV bar, as built in `get_klines_rest` / `on_message`:
fields `time` (open time), `open`, `high`, `low`, `close`, `volume`,
`close_time`, `is_final_bar`.  The Python `open` key is called `open_`
because `open` is a Lean keyword. -/
structure Candle where
  time : ℚ
  open_ : ℚ
  high : ℚ
  low : ℚ
  close : ℚ
  volume : ℚ
  close_time : ℚ
  is_final_bar : Bool
deriving DecidableEq, Repr

instance : Inhabited Candle :=
  ⟨⟨0, 0, 0, 0, 0, 0, 0, false⟩⟩

/-- Result record of `get_candle_properties` (src/main.py lines 80-113). -/
structure CandleProps where
  body_abs : ℚ
  full_range : ℚ
  upper_shadow : ℚ
  lower_shadow : ℚ
  is_bullish : Bool
  is_bearish : Bool
  is_doji_like : Bool
  body_to_range_ratio : ℚ
  upper_shadow_to_range_ratio : ℚ
  lower_shadow_to_range_ratio : ℚ
deriving DecidableEq, Repr

/-- Python's `abs` on a rational difference. -/
def pyabs (q : ℚ) : ℚ :=
  if q < 0 then -q else q

/-- `get_candle_properties` (src/main.py lines 80-113): basic geometric
properties of one bar; the `full_range == 0` branch defines all three
ratios as `0` and `is_doji_like` as `true`.  Total by construction. -/
def get_candle_properties (c : Candle) : CandleProps :=
  let body_abs := pyabs (c.close - c.open_)
  let full_range := c.high - c.low
  let upper_shadow := c.high - max c.open_ c.close
  let lower_shadow := min c.open_ c.close - c.low
  if full_range = 0 then
    ⟨body_abs, full_range, upper_shadow, lower_shadow,
      decide (c.close > c.open_), decide (c.close < c.open_), true, 0, 0, 0⟩
  else
    ⟨body_abs, full_range, upper_shadow, lower_shadow,
      decide (c.close > c.open_), decide (c.close < c.open_),
      decide (body_abs / full_range < 15 / 100),
      body_abs / full_range, upper_shadow / full_range, lower_shadow / full_range⟩

/-- C8: for every bar with `full_range = 0` the derived-properties function
returns `0` for all three ratios and `is_doji_like = true`; it is total on
all bars (the Lean embedding is a total function by construction). -/
theorem zero_range_properties (c : Candle) (h : c.high - c.low = 0) :
    (get_candle_properties c).body_to_range_ratio = 0 ∧
    (get_candle_properties c).upper_shadow_to_range_ratio = 0 ∧
    (get_candle_properties c).lower_shadow_to_range_ratio = 0 ∧
    (get_candle_properties c).is_doji_like = true := by
  simp [get_candle_properties, h]

/-- Witness for `zero_range_properties` at the degenerate bar with
`open = high = low = close = 5`. -/
theorem zero_range_properties_witness :
    (get_candle_properties ⟨0, 5, 5, 5, 5, 0, 0, true⟩).body_to_range_ratio = 0 ∧
    (get_candle_properties ⟨0, 5, 5, 5, 5, 0, 0, true⟩).upper_shadow_to_range_ratio = 0 ∧
    (get_candle_properties ⟨0, 5, 5, 5, 5, 0, 0, true⟩).lower_shadow_to_range_ratio = 0 ∧
    (get_candle_properties ⟨0, 5, 5, 5, 5, 0, 0, true⟩).is_doji_like = true :=
  zero_range_properties ⟨0, 5, 5, 5, 5, 0, 0, true⟩ (by norm_num)

/-- C10: `is_bullish` holds exactly when `close > open`, `is_bearish`
exactly when `close < open` (identically in the zero-range branch), and the
two flags are never simultaneously true, so every bar is bullish, bearish,
or neither. -/
theorem bullish_bearish_exclusive (c : Candle) :
    (get_candle_properties c).is_bullish = decide (c.close > c.open_) ∧
    (get_candle_properties c).is_bearish = decide (c.close < c.open_) ∧
    ((get_candle_properties c).is_bullish && (get_candle_properties c).is_bearish) = false := by
  by_cases hfr : c.high - c.low = 0 <;>
    rcases lt_trichotomy c.close c.open_ with h | h | h <;>
      simp [get_candle_properties, hfr, h, lt_irrefl] <;>
        exact le_of_lt h

/-- Builds a list of degenerate flat bars (`open = high = low = close`) from a
price path; used for concrete test series. -/
def flatCandles (prices : List ℚ) : List Candle :=
  prices.map fun p => ⟨0, p, p, p, p, 0, 0, true⟩

/-- `get_trend_direction` (src/main.py lines 115-132): SMA-slope trend tag on
the last `lookback_period` closes.  Note the source's `sma_prev` is the mean
of `closes[:-1]`, i.e. of the first `lookback_period - 1` closes among the
last `lookback_period`, not of the preceding `lookback_period` closes. -/
def get_trend_direction (candles : List Candle) (lookback_period : ℕ) : String :=
  if candles.length < lookback_period then "Unknown"
  else
    let closes := (candles.drop (candles.length - lookback_period)).map fun c => c.close
    if closes.length < lookback_period then "Unknown"
    else
      let sma_prev := closes.dropLast.sum / ((lookback_period : ℚ) - 1)
      let sma_current := closes.sum / (lookback_period : ℚ)
      if sma_current > sma_prev then "Uptrend"
      else if sma_current < sma_prev then "Downtrend"
      else "Sideways"

/-- Comparison definition following the spec's words (§4.3): compares
`SMA(last 10 closes)` against `SMA(previous 10 closes)`; "Uptrend" if the
current SMA is strictly greater, "Downtrend" if strictly less, else
"Sideways"; "Unknown" when fewer than 10 bars are available. -/
def specSMATrendDirection (candles : List Candle) : String :=
  if candles.length < 10 then "Unknown"
  else
    let closes := candles.map fun c => c.close
    let last10 := closes.drop (closes.length - 10)
    let prev10 := (closes.take (closes.length - 10)).drop (closes.length - 20)
    let sma_current := last10.sum / 10
    let sma_prev := prev10.sum / 10
    if sma_current > sma_prev then "Uptrend"
    else if sma_current < sma_prev then "Downtrend"
    else "Sideways"

/-- A 20-bar series: ten closes at 100, then 110, then nine closes at 100.
The mean of the last ten closes (101) exceeds the mean of the previous ten
(100), yet the code returns "Downtrend" because it compares against the mean
of the first nine of the last ten closes (910/9). -/
def trendMismatchBars : List Candle :=
  flatCandles (List.replicate 10 100 ++ 110 :: List.replicate 9 100)

/-- C3 counterexample: at `trendMismatchBars` the source function returns
"Downtrend" while the spec's SMA(last 10) vs SMA(previous 10) comparison
yields "Uptrend" — the claim's description of the comparison is false. -/
theorem trend_direction_sma_mismatch :
    get_trend_direction trendMismatchBars 10 = "Downtrend" ∧
    specSMATrendDirection trendMismatchBars = "Uptrend" := by
  constructor <;> decide

/-- C3 amended: with fewer than 10 bars the function returns "Unknown";
otherwise it compares the mean of the last 10 closes (`S/10`) against the
mean of the first 9 of those 10 closes (`P/9`, excluding the most recent
close): "Uptrend" iff `P * 10 < S * 9`, "Downtrend" iff `S * 9 < P * 10`,
else "Sideways". -/
theorem trend_direction_characterization (candles : List Candle) :
    (candles.length < 10 → get_trend_direction candles 10 = "Unknown") ∧
    (10 ≤ candles.length →
      get_trend_direction candles 10 =
        if ((candles.drop (candles.length - 10)).map fun c => c.close).dropLast.sum * 10 <
            ((candles.drop (candles.length - 10)).map fun c => c.close).sum * 9 then "Uptrend"
        else if ((candles.drop (candles.length - 10)).map fun c => c.close).sum * 9 <
            ((candles.drop (candles.length - 10)).map fun c => c.close).dropLast.sum * 10 then
          "Downtrend"
        else "Sideways") := by
  constructor
  · intro h
    unfold get_trend_direction
    rw [if_pos h]
  · intro h
    unfold get_trend_direction
    rw [if_neg (by omega)]
    have hlen : ((candles.drop (candles.length - 10)).map fun c => c.close).length = 10 := by
      rw [List.length_map, List.length_drop]
      omega
    rw [if_neg (by rw [hlen]; omega)]
    simp only [gt_iff_lt, show ((10 : ℕ) : ℚ) = 10 from by norm_num,
      show (10 : ℚ) - 1 = 9 from by norm_num]
    simp only [div_lt_div_iff₀ (show (0 : ℚ) < 9 from by norm_num)
        (show (0 : ℚ) < 10 from by norm_num),
      div_lt_div_iff₀ (show (0 : ℚ) < 10 from by norm_num)
        (show (0 : ℚ) < 9 from by norm_num)]

/-- Witness for `trend_direction_characterization`: a 10-bar series with nine
closes at 1 and a final close at 2 is tagged "Uptrend". -/
theorem trend_direction_characterization_witness :
    get_trend_direction (flatCandles [1, 1, 1, 1, 1, 1, 1, 1, 1, 2]) 10 = "Uptrend" :=
  ((trend_direction_characterization (flatCandles [1, 1, 1, 1, 1, 1, 1, 1, 1, 2])).2
    (by decide)).trans (by decide)

/-- The `interval_seconds_map` table of `get_time_progress` (src/main.py
lines 138-144): interval strings and their durations in seconds. -/
def interval_seconds_map : List (String × ℚ) :=
  [("1m", 60), ("3m", 180), ("5m", 300), ("15m", 900), ("30m", 1800),
   ("1h", 3600), ("2h", 7200), ("4h", 14400), ("6h", 21600), ("8h", 28800),
   ("12h", 43200), ("1d", 86400), ("3d", 259200), ("1w", 604800), ("1M", 2592000)]

/-- The `interval_seconds_map.get(interval_str)` dictionary read: known
interval strings map to their duration, unknown ones to `none`. -/
def interval_seconds (interval_str : String) : Option ℚ :=
  interval_seconds_map.lookup interval_str

lemma lookup_pos (s : String) (d : ℚ) (l : List (String × ℚ))
    (hpos : ∀ p ∈ l, 0 < p.2) (h : l.lookup s = some d) : 0 < d := by
  induction l with
  | nil => simp [List.lookup] at h
  | cons hd tl ih =>
    rw [List.lookup] at h
    split at h
    · cases h
      exact hpos hd (List.mem_cons_self hd tl)
    · exact ih (fun p hp => hpos p (List.mem_cons_of_mem hd hp)) h

/-- `get_time_progress` (src/main.py lines 134-153): elapsed fraction of the
live bar's window.  The wall clock `now` is passed explicitly; `elapsed` is
`now - candle_open_time` in seconds as in the source. -/
def get_time_progress (candle_open_time : ℚ) (interval_str : String) (now : ℚ) : ℚ :=
  match interval_seconds interval_str with
  | none => 0
  | some interval_sec =>
    let elapsed_time := now - candle_open_time
    if elapsed_time ≤ 0 then 0
    else if elapsed_time ≥ interval_sec then 1
    else elapsed_time / interval_sec

lemma interval_seconds_pos (interval_str : String) (d : ℚ)
    (h : interval_seconds interval_str = some d) : 0 < d :=
  lookup_pos interval_str d interval_seconds_map (by decide) h

/-- C9: the time-progress value always lies in `[0, 1]`; it is `0` for an
unknown interval string or non-positive elapsed time, `1` once the elapsed
time reaches the interval duration, and `elapsed / duration` otherwise. -/
theorem time_progress_bounds (candle_open_time : ℚ) (interval_str : String) (now : ℚ) :
    0 ≤ get_time_progress candle_open_time interval_str now ∧
    get_time_progress candle_open_time interval_str now ≤ 1 ∧
    (interval_seconds interval_str = none →
      get_time_progress candle_open_time interval_str now = 0) ∧
    (now - candle_open_time ≤ 0 →
      get_time_progress candle_open_time interval_str now = 0) ∧
    (∀ d : ℚ, interval_seconds interval_str = some d → d ≤ now - candle_open_time →
      get_time_progress candle_open_time interval_str now = 1) ∧
    (∀ d : ℚ, interval_seconds interval_str = some d →
      0 < now - candle_open_time → now - candle_open_time < d →
      get_time_progress candle_open_time interval_str now = (now - candle_open_time) / d) := by
  unfold get_time_progress
  rcases hlk : interval_seconds interval_str with _ | d
  · simp [hlk]
  · have hd := interval_seconds_pos interval_str d hlk
    simp only [hlk]
    split_ifs with h1 h2
    · refine ⟨le_refl 0, by norm_num, fun _ => rfl, fun _ => rfl, ?_, ?_⟩
      · intro d' hd' hle
        cases hd'
        linarith
      · intro d' hd' hpos _
        linarith
    · refine ⟨by norm_num, le_refl 1, ?_, ?_, fun _ _ _ => rfl, ?_⟩
      · intro hnone
        exact hnone.elim
      · intro hle
        exact absurd hle h1
      · intro d' hd' hpos hlt
        cases hd'
        linarith
    · have hpos : 0 < now - candle_open_time := lt_of_not_le h1
      have hlt : now - candle_open_time < d := lt_of_not_le h2
      refine ⟨div_nonneg hpos.le hd.le, (div_le_one hd).mpr hlt.le, ?_, ?_, ?_, ?_⟩
      · intro hnone
        exact hnone.elim
      · intro hle
        exact absurd hle h1
      · intro d' hd' hge
        cases hd'
        linarith
      · intro d' hd' _ _
        cases hd'
        rfl

/-- Witness for `time_progress_bounds`: a "2h" bar opened 10800 seconds ago
reports progress 1. -/
theorem time_progress_bounds_witness :
    get_time_progress 0 "2h" 10800 = 1 :=
  (time_progress_bounds 0 "2h" 10800).2.2.2.2.1 7200 (by decide) (by norm_num)

/-- Loop body of `get_significant_swing_points` for swing highs (src/main.py
lines 321-329): no bar strictly above bar `i` within `window` on both sides
(the source skips `j = i`), confirmed by `low[i+window] < high[i] *
(1 - threshold)`.  `j` is encoded as `i - window + k` for `k < 2*window+1`. -/
def swing_high_ok (candles : List Candle) (window : ℕ) (threshold : ℚ) (i : ℕ) : Bool :=
  ((List.range (2 * window + 1)).all fun k =>
      decide (i - window + k = i) ||
        decide ((candles.getD (i - window + k) default).high ≤
          (candles.getD i default).high))
  && decide ((candles.getD (i + window) default).low <
      (candles.getD i default).high * (1 - threshold))

/-- Loop body of `get_significant_swing_points` for swing lows (src/main.py
lines 331-336): the mirror condition, confirmed by `high[i+window] >
low[i] * (1 + threshold)`. -/
def swing_low_ok (candles : List Candle) (window : ℕ) (threshold : ℚ) (i : ℕ) : Bool :=
  ((List.range (2 * window + 1)).all fun k =>
      decide (i - window + k = i) ||
        decide ((candles.getD i default).low ≤
          (candles.getD (i - window + k) default).low))
  && decide ((candles.getD (i + window) default).high >
      (candles.getD i default).low * (1 + threshold))

/-- `get_significant_swing_points` (src/main.py lines 316-338): returns
`([], [])` when fewer than `window * 2 + 1` bars are available, otherwise
scans interior indices `window ≤ i < len - window` in ascending order and
collects `(i, high_i)` / `(i, low_i)` for confirmed swing highs / lows. -/
def get_significant_swing_points (candles : List Candle) (window : ℕ) (threshold : ℚ) :
    List (ℕ × ℚ) × List (ℕ × ℚ) :=
  if candles.length < window * 2 + 1 then ([], [])
  else
    let idxs := (List.range (candles.length - window - window)).map (· + window)
    ((idxs.filter fun i => swing_high_ok candles window threshold i).map
        fun i => (i, (candles.getD i default).high),
     (idxs.filter fun i => swing_low_ok candles window threshold i).map
        fun i => (i, (candles.getD i default).low))

lemma swing_high_ok_iff (candles : List Candle) (window : ℕ) (threshold : ℚ) (i : ℕ)
    (hw : window ≤ i) :
    swing_high_ok candles window threshold i = true ↔
      (∀ j : ℕ, i - window ≤ j → j ≤ i + window →
        (candles.getD j default).high ≤ (candles.getD i default).high) ∧
      (candles.getD (i + window) default).low <
        (candles.getD i default).high * (1 - threshold) := by
  simp only [swing_high_ok, Bool.and_eq_true, List.all_eq_true, List.mem_range,
    Bool.or_eq_true, decide_eq_true_eq]
  constructor
  · rintro ⟨h1, h2⟩
    refine ⟨?_, h2⟩
    intro j hj1 hj2
    rcases h1 (j - (i - window)) (by omega) with he | hle
    · have hji : j = i := by omega
      rw [hji]
    · have hj : i - window + (j - (i - window)) = j := by omega
      rw [hj] at hle
      exact hle
  · rintro ⟨h1, h2⟩
    refine ⟨?_, h2⟩
    intro k hk
    exact Or.inr (h1 (i - window + k) (by omega) (by omega))

lemma swing_low_ok_iff (candles : List Candle) (window : ℕ) (threshold : ℚ) (i : ℕ)
    (hw : window ≤ i) :
    swing_low_ok candles window threshold i = true ↔
      (∀ j : ℕ, i - window ≤ j → j ≤ i + window →
        (candles.getD i default).low ≤ (candles.getD j default).low) ∧
      (candles.getD i default).low * (1 + threshold) <
        (candles.getD (i + window) default).high := by
  simp only [swing_low_ok, Bool.and_eq_true, List.all_eq_true, List.mem_range,
    Bool.or_eq_true, decide_eq_true_eq, gt_iff_lt]
  constructor
  · rintro ⟨h1, h2⟩
    refine ⟨?_, h2⟩
    intro j hj1 hj2
    rcases h1 (j - (i - window)) (by omega) with he | hle
    · have hji : j = i := by omega
      rw [hji]
    · have hj : i - window + (j - (i - window)) = j := by omega
      rw [hj] at hle
      exact hle
  · rintro ⟨h1, h2⟩
    refine ⟨?_, h2⟩
    intro k hk
    exact Or.inr (h1 (i - window + k) (by omega) (by omega))

lemma mem_swing_highs_iff (candles : List Candle) (window : ℕ) (threshold : ℚ) (p : ℕ × ℚ) :
    p ∈ (get_significant_swing_points candles window threshold).1 ↔
      window ≤ p.1 ∧ p.1 + window < candles.length ∧
      p.2 = (candles.getD p.1 default).high ∧
      swing_high_ok candles window threshold p.1 = true := by
  obtain ⟨a, b⟩ := p
  unfold get_significant_swing_points
  split
  · next hlt =>
    simp only [List.not_mem_nil, false_iff]
    rintro ⟨h1, h2, -, -⟩
    omega
  · next hge =>
    simp only [List.mem_map, List.mem_filter, List.mem_range, Prod.mk.injEq]
    constructor
    · rintro ⟨i, ⟨⟨k, hk, rfl⟩, hok⟩, rfl, rfl⟩
      exact ⟨by omega, by omega, rfl, hok⟩
    · rintro ⟨h1, h2, rfl, hok⟩
      exact ⟨a, ⟨⟨a - window, by omega, by omega⟩, hok⟩, rfl, rfl⟩

lemma mem_swing_lows_iff (candles : List Candle) (window : ℕ) (threshold : ℚ) (p : ℕ × ℚ) :
    p ∈ (get_significant_swing_points candles window threshold).2 ↔
      window ≤ p.1 ∧ p.1 + window < candles.length ∧
      p.2 = (candles.getD p.1 default).low ∧
      swing_low_ok candles window threshold p.1 = true := by
  obtain ⟨a, b⟩ := p
  unfold get_significant_swing_points
  split
  · next hlt =>
    simp only [List.not_mem_nil, false_iff]
    rintro ⟨h1, h2, -, -⟩
    omega
  · next hge =>
    simp only [List.mem_map, List.mem_filter, List.mem_range, Prod.mk.injEq]
    constructor
    · rintro ⟨i, ⟨⟨k, hk, rfl⟩, hok⟩, rfl, rfl⟩
      exact ⟨by omega, by omega, rfl, hok⟩
    · rintro ⟨h1, h2, rfl, hok⟩
      exact ⟨a, ⟨⟨a - window, by omega, by omega⟩, hok⟩, rfl, rfl⟩

lemma swing_idxs_sorted (n window : ℕ) (q : ℕ → Bool) :
    List.Pairwise (· < ·) (((List.range n).map (· + window)).filter q) :=
  (List.pairwise_map.mpr
    ((List.pairwise_lt_range n).imp fun h => by omega)).sublist
    (List.filter_sublist _)

lemma swing_highs_sorted (candles : List Candle) (window : ℕ) (threshold : ℚ) :
    List.Pairwise (fun a b => a.1 < b.1)
      (get_significant_swing_points candles window threshold).1 := by
  unfold get_significant_swing_points
  split
  · simp
  · exact List.pairwise_map.mpr
      ((swing_idxs_sorted _ window _).imp fun h => h)

lemma swing_lows_sorted (candles : List Candle) (window : ℕ) (threshold : ℚ) :
    List.Pairwise (fun a b => a.1 < b.1)
      (get_significant_swing_points candles window threshold).2 := by
  unfold get_significant_swing_points
  split
  · simp
  · exact List.pairwise_map.mpr
      ((swing_idxs_sorted _ window _).imp fun h => h)

/-- C4: with fewer than `2*window+1` bars the extractor returns two empty
lists; every returned index `i` lies in `[window, len - window - 1]` and
carries the bar's high/low as its price; `i` is reported as a swing high
exactly when no bar in `[i-window, i+window]` has a strictly greater high
than bar `i` and `low[i+window] < high[i] * (1 - threshold)`, with the mirror
condition for swing lows; both lists are in strictly ascending index
order. -/
theorem swing_points_characterization (candles : List Candle) (window : ℕ) (threshold : ℚ) :
    (candles.length < 2 * window + 1 →
      get_significant_swing_points candles window threshold = ([], [])) ∧
    (∀ p ∈ (get_significant_swing_points candles window threshold).1,
      window ≤ p.1 ∧ p.1 + window < candles.length ∧
      p.2 = (candles.getD p.1 default).high) ∧
    (∀ p ∈ (get_significant_swing_points candles window threshold).2,
      window ≤ p.1 ∧ p.1 + window < candles.length ∧
      p.2 = (candles.getD p.1 default).low) ∧
    (∀ i : ℕ, window ≤ i → i + window < candles.length →
      ((i, (candles.getD i default).high) ∈
          (get_significant_swing_points candles window threshold).1 ↔
        (∀ j : ℕ, i - window ≤ j → j ≤ i + window →
          (candles.getD j default).high ≤ (candles.getD i default).high) ∧
        (candles.getD (i + window) default).low <
          (candles.getD i default).high * (1 - threshold))) ∧
    (∀ i : ℕ, window ≤ i → i + window < candles.length →
      ((i, (candles.getD i default).low) ∈
          (get_significant_swing_points candles window threshold).2 ↔
        (∀ j : ℕ, i - window ≤ j → j ≤ i + window →
          (candles.getD i default).low ≤ (candles.getD j default).low) ∧
        (candles.getD i default).low * (1 + threshold) <
          (candles.getD (i + window) default).high)) ∧
    List.Pairwise (fun a b => a.1 < b.1)
      (get_significant_swing_points candles window threshold).1 ∧
    List.Pairwise (fun a b => a.1 < b.1)
      (get_significant_swing_points candles window threshold).2 := by
  refine ⟨?_, ?_, ?_, ?_, ?_, swing_highs_sorted candles window threshold,
    swing_lows_sorted candles window threshold⟩
  · intro h
    unfold get_significant_swing_points
    rw [if_pos (by omega)]
  · intro p hp
    have h := (mem_swing_highs_iff candles window threshold p).mp hp
    exact ⟨h.1, h.2.1, h.2.2.1⟩
  · intro p hp
    have h := (mem_swing_lows_iff candles window threshold p).mp hp
    exact ⟨h.1, h.2.1, h.2.2.1⟩
  · intro i hwi hil
    rw [mem_swing_highs_iff candles window threshold (i, (candles.getD i default).high),
      ← swing_high_ok_iff candles window threshold i hwi]
    constructor
    · rintro ⟨-, -, -, hok⟩
      exact hok
    · intro hok
      exact ⟨hwi, hil, rfl, hok⟩
  · intro i hwi hil
    rw [mem_swing_lows_iff candles window threshold (i, (candles.getD i default).low),
      ← swing_low_ok_iff candles window threshold i hwi]
    constructor
    · rintro ⟨-, -, -, hok⟩
      exact hok
    · intro hok
      exact ⟨hwi, hil, rfl, hok⟩

/-- Witness for `swing_points_characterization`: a three-bar series at
window 1 reports index 1 as a swing high (prices 5, 9, 5, threshold 1/10),
and a one-bar series at window 5 yields empty lists. -/
theorem swing_points_characterization_witness :
    get_significant_swing_points (flatCandles [5]) 5 (1 / 10) = ([], []) ∧
    (1, 9) ∈ (get_significant_swing_points (flatCandles [5, 9, 5]) 1 (1 / 10)).1 :=
  ⟨(swing_points_characterization (flatCandles [5]) 5 (1 / 10)).1 (by decide),
   ((swing_points_characterization (flatCandles [5, 9, 5]) 1 (1 / 10)).2.2.2.1 1
      (by decide) (by decide)).mpr (by decide)⟩

/-- Python's `max` over a price list (0 on the empty list, which the source
never reaches: every use is guarded by a non-emptiness test). -/
def pymax (l : List ℚ) : ℚ :=
  match l with
  | [] => 0
  | x :: xs => xs.foldl max x

/-- Python's `min` over a price list (0 on the empty list, guarded as above). -/
def pymin (l : List ℚ) : ℚ :=
  match l with
  | [] => 0
  | x :: xs => xs.foldl min x

lemma le_foldl_max (l : List ℚ) (a : ℚ) : a ≤ l.foldl max a := by
  induction l generalizing a with
  | nil => exact le_refl a
  | cons x xs ih => exact le_trans (le_max_left a x) (ih (max a x))

lemma mem_le_foldl_max (l : List ℚ) (a : ℚ) : ∀ x ∈ l, x ≤ l.foldl max a := by
  induction l generalizing a with
  | nil =>
    intro x hx
    cases hx
  | cons y ys ih =>
    intro x hx
    rcases List.mem_cons.mp hx with rfl | hx
    · exact le_trans (le_max_right a x) (le_foldl_max ys (max a x))
    · exact ih (max a y) x hx

lemma foldl_max_mem (l : List ℚ) (a : ℚ) : l.foldl max a = a ∨ l.foldl max a ∈ l := by
  induction l generalizing a with
  | nil => exact Or.inl rfl
  | cons y ys ih =>
    rcases ih (max a y) with h | h
    · rcases max_choice a y with hm | hm
      · exact Or.inl (by rw [List.foldl_cons, h, hm])
      · refine Or.inr ?_
        rw [List.foldl_cons, h, hm]
        exact List.mem_cons_self y ys
    · exact Or.inr (List.mem_cons_of_mem y h)

lemma pymax_mem (l : List ℚ) (h : l ≠ []) : pymax l ∈ l := by
  match l with
  | [] => exact absurd rfl h
  | x :: xs =>
    rcases foldl_max_mem xs x with hm | hm
    · rw [pymax, hm]
      exact List.mem_cons_self x xs
    · exact List.mem_cons_of_mem x hm

lemma le_pymax (l : List ℚ) : ∀ x ∈ l, x ≤ pymax l := by
  intro x hx
  match l with
  | x' :: xs =>
    rcases List.mem_cons.mp hx with rfl | hx
    · exact le_foldl_max xs x
    · exact mem_le_foldl_max xs x' x hx

/-- Double-top half of `detect_double_top_bottom` (src/main.py lines
348-355): requires two swing highs, the last two separated by more than 5
index positions and within 1.5% in price relative to the earlier one; the
neckline is the highest swing low strictly between them, and the tag fires
when the last close is below 99% of it. -/
def double_top_tag (candles : List Candle) (swing_highs swing_lows : List (ℕ × ℚ)) :
    List String :=
  if 2 ≤ swing_highs.length then
    let h2 := swing_highs.getD (swing_highs.length - 1) (0, 0)
    let h1 := swing_highs.getD (swing_highs.length - 2) (0, 0)
    if h1.1 + 5 < h2.1 ∧ pyabs (h1.2 - h2.2) / h1.2 < 15 / 1000 then
      let valley_lows := swing_lows.filterMap fun w =>
        if h1.1 < w.1 ∧ w.1 < h2.1 then some w.2 else none
      if valley_lows ≠ [] ∧
          (candles.getLastD default).close < pymax valley_lows * (99 / 100) then
        ["Double Top"]
      else []
    else []
  else []

/-- Double-bottom half of `detect_double_top_bottom` (src/main.py lines
357-364): the exact mirror of `double_top_tag`. -/
def double_bottom_tag (candles : List Candle) (swing_highs swing_lows : List (ℕ × ℚ)) :
    List String :=
  if 2 ≤ swing_lows.length then
    let l2 := swing_lows.getD (swing_lows.length - 1) (0, 0)
    let l1 := swing_lows.getD (swing_lows.length - 2) (0, 0)
    if l1.1 + 5 < l2.1 ∧ pyabs (l1.2 - l2.2) / l1.2 < 15 / 1000 then
      let peak_highs := swing_highs.filterMap fun w =>
        if l1.1 < w.1 ∧ w.1 < l2.1 then some w.2 else none
      if peak_highs ≠ [] ∧
          (candles.getLastD default).close > pymin peak_highs * (101 / 100) then
        ["Double Bottom"]
      else []
    else []
  else []

/-- `detect_double_top_bottom` (src/main.py lines 340-365): empty below 70
bars, otherwise the double-top and double-bottom rules over swing points at
window 20, threshold 0.01. -/
def detect_double_top_bottom (candles : List Candle) : List String :=
  if candles.length < 70 then []
  else
    let s := get_significant_swing_points candles 20 (1 / 100)
    double_top_tag candles s.1 s.2 ++ double_bottom_tag candles s.1 s.2

lemma mem_valley_lows (sl : List (ℕ × ℚ)) (lo hi : ℕ) (x : ℚ) :
    (x ∈ sl.filterMap fun w => if lo < w.1 ∧ w.1 < hi then some w.2 else none) ↔
      ∃ w ∈ sl, (lo < w.1 ∧ w.1 < hi) ∧ w.2 = x := by
  simp only [List.mem_filterMap]
  constructor
  · rintro ⟨w, hw, hfw⟩
    by_cases hP : lo < w.1 ∧ w.1 < hi
    · rw [if_pos hP] at hfw
      cases hfw
      exact ⟨w, hw, hP, rfl⟩
    · rw [if_neg hP] at hfw
      cases hfw
  · rintro ⟨w, hw, hP, rfl⟩
    exact ⟨w, hw, by rw [if_pos hP]⟩

lemma valley_break_iff (sl : List (ℕ × ℚ)) (lo hi : ℕ) (c : ℚ) :
    ((sl.filterMap fun w => if lo < w.1 ∧ w.1 < hi then some w.2 else none) ≠ [] ∧
      c < pymax (sl.filterMap fun w => if lo < w.1 ∧ w.1 < hi then some w.2 else none) *
        (99 / 100)) ↔
      ∃ v ∈ sl, (lo < v.1 ∧ v.1 < hi) ∧
        (∀ w ∈ sl, lo < w.1 → w.1 < hi → w.2 ≤ v.2) ∧ c < v.2 * (99 / 100) := by
  constructor
  · rintro ⟨hne, hlt⟩
    rcases (mem_valley_lows sl lo hi _).mp (pymax_mem _ hne) with ⟨v, hv, hPv, hveq⟩
    refine ⟨v, hv, hPv, ?_, ?_⟩
    · intro w hw h1 h2
      have hwin := (mem_valley_lows sl lo hi w.2).mpr ⟨w, hw, ⟨h1, h2⟩, rfl⟩
      rw [hveq]
      exact le_pymax _ w.2 hwin
    · rw [hveq]
      exact hlt
  · rintro ⟨v, hv, hPv, hmaxv, hc⟩
    have hvin := (mem_valley_lows sl lo hi v.2).mpr ⟨v, hv, hPv, rfl⟩
    have hne : (sl.filterMap fun w => if lo < w.1 ∧ w.1 < hi then some w.2 else none) ≠ [] := by
      intro h
      rw [h] at hvin
      exact absurd hvin (List.not_mem_nil _)
    refine ⟨hne, ?_⟩
    have h1 : pymax (sl.filterMap fun w => if lo < w.1 ∧ w.1 < hi then some w.2 else none) ≤
        v.2 := by
      rcases (mem_valley_lows sl lo hi _).mp (pymax_mem _ hne) with ⟨w, hw, hPw, hweq⟩
      rw [← hweq]
      exact hmaxv w hw hPw.1 hPw.2
    have h2 := le_pymax _ v.2 hvin
    rw [le_antisymm h1 h2]
    exact hc

lemma double_top_tag_mem (candles : List Candle) (sh sl : List (ℕ × ℚ)) :
    "Double Top" ∈ double_top_tag candles sh sl ↔
      2 ≤ sh.length ∧
      (sh.getD (sh.length - 2) (0, 0)).1 + 5 < (sh.getD (sh.length - 1) (0, 0)).1 ∧
      pyabs ((sh.getD (sh.length - 2) (0, 0)).2 - (sh.getD (sh.length - 1) (0, 0)).2) /
        (sh.getD (sh.length - 2) (0, 0)).2 < 15 / 1000 ∧
      ∃ v ∈ sl,
        ((sh.getD (sh.length - 2) (0, 0)).1 < v.1 ∧
          v.1 < (sh.getD (sh.length - 1) (0, 0)).1) ∧
        (∀ w ∈ sl, (sh.getD (sh.length - 2) (0, 0)).1 < w.1 →
          w.1 < (sh.getD (sh.length - 1) (0, 0)).1 → w.2 ≤ v.2) ∧
        (candles.getLastD default).close < v.2 * (99 / 100) := by
  unfold double_top_tag
  dsimp only
  split_ifs with hlen hcond hbrk
  · constructor
    · intro _
      exact ⟨hlen, hcond.1, hcond.2, (valley_break_iff sl _ _ _).mp hbrk⟩
    · intro _
      exact List.mem_singleton.mpr rfl
  · simp only [List.not_mem_nil, false_iff]
    rintro ⟨-, -, -, hE⟩
    exact hbrk ((valley_break_iff sl _ _ _).mpr hE)
  · simp only [List.not_mem_nil, false_iff]
    rintro ⟨-, h1, h2, -⟩
    exact hcond ⟨h1, h2⟩
  · simp only [List.not_mem_nil, false_iff]
    rintro ⟨h1, -, -, -⟩
    exact hlen h1

lemma double_bottom_no_top (candles : List Candle) (sh sl : List (ℕ × ℚ)) :
    "Double Top" ∉ double_bottom_tag candles sh sl := by
  unfold double_bottom_tag
  split_ifs <;> simp

/-- C6: the double-top detector returns no patterns for views shorter than
70 bars; on longer views it emits "Double Top" exactly when the two most
recent swing highs (window 20, threshold 0.01) have more than 5 index
positions between them and are within 1.5% of each other in price (relative
to the earlier high), at least one swing low lies strictly between them,
and the last close is below 99% of the highest such intervening valley. -/
theorem double_top_characterization (candles : List Candle) :
    (candles.length < 70 → detect_double_top_bottom candles = []) ∧
    (70 ≤ candles.length →
      ("Double Top" ∈ detect_double_top_bottom candles ↔
        2 ≤ (get_significant_swing_points candles 20 (1 / 100)).1.length ∧
        ((get_significant_swing_points candles 20 (1 / 100)).1.getD
            ((get_significant_swing_points candles 20 (1 / 100)).1.length - 2) (0, 0)).1 + 5 <
          ((get_significant_swing_points candles 20 (1 / 100)).1.getD
            ((get_significant_swing_points candles 20 (1 / 100)).1.length - 1) (0, 0)).1 ∧
        pyabs (((get_significant_swing_points candles 20 (1 / 100)).1.getD
              ((get_significant_swing_points candles 20 (1 / 100)).1.length - 2) (0, 0)).2 -
            ((get_significant_swing_points candles 20 (1 / 100)).1.getD
              ((get_significant_swing_points candles 20 (1 / 100)).1.length - 1) (0, 0)).2) /
          ((get_significant_swing_points candles 20 (1 / 100)).1.getD
            ((get_significant_swing_points candles 20 (1 / 100)).1.length - 2) (0, 0)).2 <
          15 / 1000 ∧
        ∃ v ∈ (get_significant_swing_points candles 20 (1 / 100)).2,
          (((get_significant_swing_points candles 20 (1 / 100)).1.getD
              ((get_significant_swing_points candles 20 (1 / 100)).1.length - 2) (0, 0)).1 <
            v.1 ∧
            v.1 < ((get_significant_swing_points candles 20 (1 / 100)).1.getD
              ((get_significant_swing_points candles 20 (1 / 100)).1.length - 1) (0, 0)).1) ∧
          (∀ w ∈ (get_significant_swing_points candles 20 (1 / 100)).2,
            ((get_significant_swing_points candles 20 (1 / 100)).1.getD
              ((get_significant_swing_points candles 20 (1 / 100)).1.length - 2) (0, 0)).1 <
              w.1 →
            w.1 < ((get_significant_swing_points candles 20 (1 / 100)).1.getD
              ((get_significant_swing_points candles 20 (1 / 100)).1.length - 1) (0, 0)).1 →
            w.2 ≤ v.2) ∧
          (candles.getLastD default).close < v.2 * (99 / 100))) := by
  constructor
  · intro h
    unfold detect_double_top_bottom
    rw [if_pos h]
  · intro h
    unfold detect_double_top_bottom
    rw [if_neg (by omega)]
    rw [List.mem_append]
    have hnb := double_bottom_no_top candles
      (get_significant_swing_points candles 20 (1 / 100)).1
      (get_significant_swing_points candles 20 (1 / 100)).2
    simp only [hnb, or_false]
    exact double_top_tag_mem candles
      (get_significant_swing_points candles 20 (1 / 100)).1
      (get_significant_swing_points candles 20 (1 / 100)).2

/-- Witness for `double_top_characterization`: a 69-bar view yields no
patterns. -/
theorem double_top_characterization_witness :
    detect_double_top_bottom (flatCandles (List.replicate 69 100)) = [] :=
  (double_top_characterization (flatCandles (List.replicate 69 100))).1 (by decide)

/-- A 70-bar synthetic double-top price path: a rise to a first maximum of
1000 at index 25, a valley of 950 (5% below the maxima) at index 30, a
second equal maximum of 1000 at index 36 (10 bars after the first; window
20 forces the two maxima to be exactly equal, hence within 1%), and a
decline to a final close of 931, 2% under the valley low. -/
def doubleTopScenario : List ℚ :=
  [950, 952, 954, 956, 958, 960, 962, 964, 966, 968,
   970, 972, 974, 976, 978, 980, 982, 984, 986, 988,
   990, 992, 994, 996, 998, 1000, 990, 980, 970, 960,
   950, 960, 970, 980, 990, 996, 1000, 998, 996, 994,
   992, 990, 988, 986, 984, 982, 980, 978, 976, 974,
   972, 970, 968, 966, 964, 962, 960, 958, 956, 954,
   952, 950, 948, 946, 944, 942, 940, 937, 934, 931]

/-- C7: on the 70-bar synthetic double-top series the detector emits exactly
"Double Top"; the swing extraction at window 20, threshold 0.01 finds the
two equal maxima at indices 25 and 36 and the valley at index 30. -/
theorem double_top_scenario_fires :
    (flatCandles doubleTopScenario).length = 70 ∧
    (get_significant_swing_points (flatCandles doubleTopScenario) 20 (1 / 100)).1 =
      [(25, 1000), (36, 1000)] ∧
    (get_significant_swing_points (flatCandles doubleTopScenario) 20 (1 / 100)).2 =
      [(30, 950)] ∧
    detect_double_top_bottom (flatCandles doubleTopScenario) = ["Double Top"] := by
  refine ⟨by decide, by decide, by decide, by decide⟩

/-- `detect_bos_choch` (src/main.py lines 417-455): empty below 30 bars or
with fewer than two swing highs/lows at window 10, threshold 0.002;
otherwise compares the index positions (not the prices) of the last two
swing highs and lows to classify the structure, then tests the last close
against the last swing high (+0.05%) or last swing low (-0.05%). -/
def detect_bos_choch (candles : List Candle) : List String :=
  if candles.length < 30 then []
  else
    let s := get_significant_swing_points candles 10 (2 / 1000)
    let swing_highs := s.1
    let swing_lows := s.2
    if swing_highs.length < 2 ∨ swing_lows.length < 2 then []
    else
      let lastHigh := swing_highs.getD (swing_highs.length - 1) (0, 0)
      let prevHigh := swing_highs.getD (swing_highs.length - 2) (0, 0)
      let lastLow := swing_lows.getD (swing_lows.length - 1) (0, 0)
      let prevLow := swing_lows.getD (swing_lows.length - 2) (0, 0)
      let current_close := (candles.getLastD default).close
      let bos :=
        if lastHigh.1 > prevHigh.1 ∧ lastLow.1 > prevLow.1 then
          if current_close > lastHigh.2 * (10005 / 10000) then
            ["Bullish BOS (New HH)"]
          else []
        else if lastHigh.1 < prevHigh.1 ∧ lastLow.1 < prevLow.1 then
          if current_close < lastLow.2 * (9995 / 10000) then
            ["Bearish BOS (New LL)"]
          else []
        else []
      let choch :=
        if lastHigh.1 > prevHigh.1 ∧ lastLow.1 > prevLow.1 then
          if current_close < lastLow.2 * (9995 / 10000) then
            ["Bearish CHoCH (Uptrend Reversal)"]
          else []
        else if lastHigh.1 < prevHigh.1 ∧ lastLow.1 < prevLow.1 then
          if current_close > lastHigh.2 * (10005 / 10000) then
            ["Bullish CHoCH (Downtrend Reversal)"]
          else []
        else []
      bos ++ choch

/-- A 60-bar price path whose swing structure (window 10, threshold 0.002)
is a lower-high and lower-low in price: swing highs at (15, 1000) and
(40, 978), swing lows at (27, 952) and (48, 930), with a final close of 990
that exceeds the last swing high by more than 0.05%. -/
def lowerHighLowerLowSeries : List ℚ :=
  [880, 888, 896, 904, 912, 920, 928, 936, 944, 952,
   960, 968, 976, 984, 992, 1000, 996, 992, 988, 984,
   980, 976, 972, 968, 964, 960, 956, 952, 954, 956,
   958, 960, 962, 964, 966, 968, 970, 972, 974, 976,
   978, 972, 966, 960, 954, 948, 942, 936, 930, 935,
   940, 945, 950, 955, 960, 965, 970, 975, 980, 990]

/-- C1: on `lowerHighLowerLowSeries` the two most recent swing highs form a
lower-high in price (978 < 1000) and the two most recent swing lows a
lower-low (930 < 952) — by the claim's classification a downtrend structure
in which bullish BOS must not fire — yet the code emits "Bullish BOS (New
HH)", because it compares the swing points' index positions (always
ascending in the extractor's output) instead of their prices, so the
downtrend branch is unreachable. -/
theorem bos_choch_misfires_on_lower_high_lower_low :
    (get_significant_swing_points (flatCandles lowerHighLowerLowSeries) 10 (2 / 1000)).1 =
      [(15, 1000), (40, 978)] ∧
    (get_significant_swing_points (flatCandles lowerHighLowerLowSeries) 10 (2 / 1000)).2 =
      [(27, 952), (48, 930)] ∧
    (978 : ℚ) < 1000 ∧ (930 : ℚ) < 952 ∧
    (flatCandles lowerHighLowerLowSeries).getLastD default =
      ⟨0, 990, 990, 990, 990, 0, 0, true⟩ ∧
    (990 : ℚ) > 978 * (10005 / 10000) ∧
    detect_bos_choch (flatCandles lowerHighLowerLowSeries) = ["Bullish BOS (New HH)"] := by
  refine ⟨by decide, by decide, by decide, by decide, by decide, by decide, by decide⟩

/-- The merged analysis view built in `scan_all_intervals_and_notify`
(src/main.py lines 641-658): a copy of the cached final bars, with a
non-final live bar appended when its open time is newer than the last final
bar (or the cache is empty), replacing the last final bar when the open
times coincide, and dropped otherwise; a final or absent live bar leaves
the cache unchanged. -/
def merged_view (cache : List Candle) (live : Option Candle) : List Candle :=
  match live with
  | none => cache
  | some lc =>
    if lc.is_final_bar then cache
    else
      match cache.getLast? with
      | none => cache ++ [lc]
      | some last =>
        if lc.time > last.time then cache ++ [lc]
        else if lc.time = last.time then cache.dropLast ++ [lc]
        else cache

/-- C5: when the final bars end with `B1` and the live bar `B2`
(`is_final = false`) has the same open time, the merged view replaces the
last final bar with `B2` (it contains `B2`, not `B1`); a live bar with a
strictly newer open time is appended instead. -/
theorem merged_view_replaces_or_appends (finalBars : List Candle) (B1 B2 : Candle)
    (hlast : finalBars.getLast? = some B1) (hlive : B2.is_final_bar = false) :
    (B2.time = B1.time →
      merged_view finalBars (some B2) = finalBars.dropLast ++ [B2]) ∧
    (B2.time > B1.time →
      merged_view finalBars (some B2) = finalBars ++ [B2]) := by
  constructor
  · intro heq
    simp only [merged_view, hlive, hlast, Bool.false_eq_true, if_false]
    rw [if_neg (by rw [heq]; exact lt_irrefl B1.time), if_pos heq]
  · intro hgt
    simp only [merged_view, hlive, hlast, Bool.false_eq_true, if_false]
    rw [if_pos hgt]

/-- Witness for `merged_view_replaces_or_appends`: with one final bar `B1`
and a same-open-time live bar `B2`, the merged view is `[B2]`. -/
theorem merged_view_replaces_or_appends_witness :
    merged_view [⟨100, 1, 2, 1, 2, 7, 200, true⟩]
        (some ⟨100, 2, 3, 2, 3, 4, 200, false⟩) =
      [⟨100, 2, 3, 2, 3, 4, 200, false⟩] :=
  ((merged_view_replaces_or_appends [⟨100, 1, 2, 1, 2, 7, 200, true⟩]
      ⟨100, 1, 2, 1, 2, 7, 200, true⟩ ⟨100, 2, 3, 2, 3, 4, 200, false⟩
      (by decide) (by decide)).1 (by decide)).trans (by decide)

/-- Per-interval mutable state of the bot: `_live_websocket_candle_data`,
`_candle_data_cache` and `last_processed_final_candle_time` for one
interval (src/main.py lines 38-42). -/
structure TFState where
  live : Option Candle
  cache : List Candle
  lastFinal : Option ℚ
deriving DecidableEq, Repr

/-- The at-most-once gate of `on_message` (src/main.py lines 876-877):
a finalization is processed when no final close time is stored yet or the
bar's close time is strictly greater than the stored one. -/
def finalGate (lastFinal : Option ℚ) (close_time : ℚ) : Bool :=
  match lastFinal with
  | none => true
  | some t => decide (close_time > t)

/-- The state-updating effect of `scan_all_intervals_and_notify` on the
triggering interval, restricted to the final-bar path (src/main.py lines
651-658, 668-670, 685-687 and 806-807): with no live bar in play the
analysis list is the cache; the scan bails out (leaving the state
unchanged) when the cache is empty or shorter than the minimum bar count,
and otherwise marks the last cached bar's close time as processed when that
bar is final. -/
def mark_from_cache (minNeeded : ℕ) (st : TFState) : TFState :=
  match st.cache.getLast? with
  | none => st
  | some latest =>
    if st.cache.length < minNeeded then st
    else if latest.is_final_bar then ⟨st.live, st.cache, some latest.close_time⟩
    else st

/-- The scan step for the triggering interval (src/main.py lines 636-807):
a present non-final live bar makes the scan analyze the live bar (the
`is_live_candle_being_processed` path, which never updates
`last_processed_final_candle_time`); otherwise the cache path of
`mark_from_cache` runs. -/
def scan_mark_processed (minNeeded : ℕ) (st : TFState) : TFState :=
  match st.live with
  | some lc => if lc.is_final_bar = false then st else mark_from_cache minNeeded st
  | none => mark_from_cache minNeeded st

/-- `on_message` for one interval (src/main.py lines 852-887), with the
REST refresh `get_klines_rest` passed in as `freshHistory` and the spawned
`scan_all_intervals_and_notify` thread run synchronously: the live slot is
always overwritten; a final bar passing the `finalGate` replaces the cache
with `freshHistory` and runs the scan step, otherwise nothing further
happens. -/
def on_message (st : TFState) (bar : Candle) (freshHistory : List Candle)
    (minNeeded : ℕ) : TFState :=
  if bar.is_final_bar then
    if finalGate st.lastFinal bar.close_time then
      scan_mark_processed minNeeded ⟨some bar, freshHistory, st.lastFinal⟩
    else ⟨some bar, st.cache, st.lastFinal⟩
  else ⟨some bar, st.cache, st.lastFinal⟩

/-- C2: a finalizing bar is processed exactly when its close time passes the
strictly-greater gate (or no close time is stored); provided the refreshed
history ends with the finalized bar and is long enough for the scan to
reach its marking step, the first delivery updates the stored last-final
close time to the bar's close time, and a second delivery of the same bar
is a no-op: the state (including the stored close time) is unchanged. -/
theorem ingest_final_at_most_once (st : TFState) (bar b' : Candle)
    (freshHistory : List Candle) (minNeeded : ℕ)
    (hfin : bar.is_final_bar = true)
    (hgate : finalGate st.lastFinal bar.close_time = true)
    (hlast : freshHistory.getLast? = some b')
    (hct : b'.close_time = bar.close_time)
    (hbf : b'.is_final_bar = true)
    (hlen : minNeeded ≤ freshHistory.length) :
    (on_message st bar freshHistory minNeeded).lastFinal = some bar.close_time ∧
    on_message (on_message st bar freshHistory minNeeded) bar freshHistory minNeeded =
      on_message st bar freshHistory minNeeded := by
  have hstep : on_message st bar freshHistory minNeeded =
      ⟨some bar, freshHistory, some bar.close_time⟩ := by
    unfold on_message
    rw [if_pos hfin, if_pos hgate]
    unfold scan_mark_processed
    simp only [hfin, Bool.true_eq_false, if_false]
    unfold mark_from_cache
    simp only [hlast, hbf, hct, if_true]
    rw [if_neg (by omega)]
  constructor
  · rw [hstep]
  · rw [hstep]
    unfold on_message
    rw [if_pos hfin]
    have hgate2 : finalGate (some bar.close_time) bar.close_time = false := by
      unfold finalGate
      simp [lt_irrefl]
    rw [hgate2]
    simp

/-- Witness for `ingest_final_at_most_once`: from the empty state, delivering
the final bar with close time 200 twice stores 200 once and leaves the state
unchanged on the repeat. -/
theorem ingest_final_at_most_once_witness :
    (on_message ⟨none, [], none⟩ ⟨100, 1, 2, 1, 2, 7, 200, true⟩
        [⟨100, 1, 2, 1, 2, 7, 200, true⟩] 1).lastFinal = some 200 ∧
    on_message
        (on_message ⟨none, [], none⟩ ⟨100, 1, 2, 1, 2, 7, 200, true⟩
          [⟨100, 1, 2, 1, 2, 7, 200, true⟩] 1)
        ⟨100, 1, 2, 1, 2, 7, 200, true⟩ [⟨100, 1, 2, 1, 2, 7, 200, true⟩] 1 =
      on_message ⟨none, [], none⟩ ⟨100, 1, 2, 1, 2, 7, 200, true⟩
        [⟨100, 1, 2, 1, 2, 7, 200, true⟩] 1 :=
  ingest_final_at_most_once ⟨none, [], none⟩ ⟨100, 1, 2, 1, 2, 7, 200, true⟩
    ⟨100, 1, 2, 1, 2, 7, 200, true⟩ [⟨100, 1, 2, 1, 2, 7, 200, true⟩] 1
    (by decide) (by decide) (by decide) (by decide) (by decide) (by decide)

end
